import Mathlib

/-!
Verification of the date-range selection core of `react-datepicker`
(the `useDatepicker` hook and its utilities).

Dates are embedded at day granularity as `Int` (a day index on the
timeline): the selection logic only uses `addDays` (translation),
`isBefore`/`isAfter` (order), `isSameDay` (equality) and
`eachDayOfInterval` (the list of days between two dates), all of which
are faithfully represented by integer arithmetic.  Month anchors are
embedded as `Int` (an absolute month index, `12 * year + month`): the
month-window functions only read a date through its `(year, month)`
pair and the first-of-month anchor, so a single integer represents an
`ActiveMonth` faithfully.
-/

namespace Datepicker

/-- `focusedInput` is `'startDate' | 'endDate' | null`; the `null` case is
represented by `Option`. -/
inductive FocusedInput where
  | startDate
  | endDate
deriving DecidableEq, Repr

/-- The payload passed to `onDatesChange`. -/
structure OnDatesChangeProps where
  focusedInput : Option FocusedInput
  startDate : Option Int
  endDate : Option Int
deriving DecidableEq, Repr

/-- `date-fns` `eachDayOfInterval`: the list of days from `s` to `e`
inclusive.  (`date-fns` throws a `RangeError` when `s > e`; here the list
is empty in that case.  Every reachable use below is guarded so that
`s ≤ e` whenever the list is consulted, given `minBookingDays ≥ 1`.) -/
def eachDayOfInterval (s e : Int) : List Int :=
  (List.range (e + 1 - s).toNat).map (fun (i : Nat) => s + (i : Int))

/-- `isInUnavailableDates(unavailableDates = [], date)`: some member of the
list is the same day as `date`. -/
def isInUnavailableDates (l : List Int) (d : Int) : Bool :=
  l.any (fun e => e == d)

/-- `date-fns` `isWithinInterval(date, {start, end})` at day granularity.
(`date-fns` throws when `start > end`; all uses below are guarded.) -/
def isWithinInterval (d s e : Int) : Bool :=
  decide (s ≤ d) && decide (d ≤ e)

/-- `canSelectRange` from `useDatepicker.utils`.

In the source `startDate` may syntactically be `null`, but every call in
the repository passes a non-null date (the clicked date, or a
`startDate` guarded truthy), so it is embedded as a plain `Int`; the
`!startDate` subterms of the source are then `false` and are dropped.
`endDate` is genuinely nullable.  The two bound parameters are only
passed by the exact-mode call site; the non-exact call sites omit them
(hence `none`). -/
def canSelectRange (minBookingDays : Int) (exactMinBookingDays : Bool)
    (minBookingDate maxBookingDate : Option Int)
    (isDateBlocked : Int → Bool) (startDate : Int) (endDate : Option Int) : Bool :=
  -- s = !minBookingDate || !isBefore(startDate, addDays(minBookingDate, -1))
  let s : Bool := match minBookingDate with
    | none => true
    | some i => !(decide (startDate < i + (-1)))
  -- c = !maxBookingDate || !isAfter(addDays(startDate, minBookingDays - 1), maxBookingDate)
  let c : Bool := match maxBookingDate with
    | none => true
    | some d => !(decide (startDate + (minBookingDays - 1) > d))
  -- (!startDate || minBookingDays !== 1 || endDate || isDateBlocked(startDate))
  let condA : Bool :=
    decide (minBookingDays ≠ 1) || endDate.isSome || isDateBlocked startDate
  let condB : Bool :=
    if (decide (minBookingDays > 1) && endDate.isNone && !exactMinBookingDays)
        || (decide (minBookingDays > 0) && exactMinBookingDays && s && c)
        || (decide (minBookingDays > 0) && exactMinBookingDays
            && minBookingDate.isNone && maxBookingDate.isNone) then
      (eachDayOfInterval startDate (startDate + (minBookingDays - 1))).any isDateBlocked
    else
      match endDate with
      | none => true
      | some r =>
        exactMinBookingDays || decide (r < startDate + (minBookingDays - 1))
          || (eachDayOfInterval startDate r).any isDateBlocked
  !(condA && condB)

/-- The `onDatesChange` emission of `onDateSelect(date)` in `useDatepicker`:
`some payload` when one of the five branches fires (and calls
`onDatesChange`), `none` when the click is a silent no-op.  The month
window re-seed at the end of the source function is modelled separately
(`onDateSelectReseeds`); it does not touch the selection. -/
def onDateSelectEmit (minBookingDays : Int) (exactMinBookingDays : Bool)
    (minBookingDate maxBookingDate : Option Int) (isDateBlocked : Int → Bool)
    (startDate endDate : Option Int) (focusedInput : Option FocusedInput)
    (date : Int) : Option OnDatesChangeProps :=
  if (focusedInput == some .endDate || focusedInput == some .startDate)
      && decide (minBookingDays > 0) && exactMinBookingDays
      && canSelectRange minBookingDays exactMinBookingDays
          minBookingDate maxBookingDate isDateBlocked date none then
    some ⟨none, some date, some (date + (minBookingDays - 1))⟩
  else if ((focusedInput == some .endDate
            && (match startDate with | some sd => decide (date < sd) | none => false))
        || (focusedInput == some .startDate
            && (match endDate with | some ed => decide (date > ed) | none => false)))
      && !exactMinBookingDays
      && canSelectRange minBookingDays false none none isDateBlocked date none then
    some ⟨some .endDate, some date, none⟩
  else if focusedInput == some .startDate && !exactMinBookingDays
      && canSelectRange minBookingDays false none none isDateBlocked date endDate then
    some ⟨some .endDate, some date, endDate⟩
  else if focusedInput == some .startDate && !exactMinBookingDays
      && canSelectRange minBookingDays false none none isDateBlocked date none then
    some ⟨some .endDate, some date, none⟩
  else
    match startDate with
    | some sd =>
      if focusedInput == some .endDate && !(decide (date < sd)) && !exactMinBookingDays
          && canSelectRange minBookingDays false none none isDateBlocked sd (some date) then
        some ⟨none, some sd, some date⟩
      else none
    | none => none

/-- `onResetDates` always emits this payload. -/
def onResetDatesEmit : OnDatesChangeProps :=
  ⟨some .startDate, none, none⟩

/-- Inner `isDateBlocked` from `useDatepicker.utils` (the function the hook
wraps).  The hook's call site does not pass `unavailableDates`, so the
defaulted-empty list parameter is kept explicitly. -/
def isDateBlockedFnCore (date : Int) (minBookingDate maxBookingDate : Option Int)
    (startDate endDate : Option Int) (minBookingDays : Int)
    (unavailableDates : List Int) (isDateBlockedFn : Int → Bool) : Bool :=
  isInUnavailableDates unavailableDates date
  || (match minBookingDate with | some l => decide (date < l) | none => false)
  || (match maxBookingDate with | some p => decide (date > p) | none => false)
  || (match startDate, endDate with
      | some o, none =>
        decide (minBookingDays > 1) && isWithinInterval date o (o + (minBookingDays - 2))
      | _, _ => false)
  || isDateBlockedFn date

/-- The hook-level `isDateBlocked(date)`: `isDateBlockedFnCore` applied the
way `useDatepicker` applies it — `unavailableDates` left to its default
`[]`, and the blocking callback set to `disabledDatesByUser`, i.e. the
union of the `unavailableDates` prop and the caller's predicate. -/
def isDateBlockedHook (minBookingDate maxBookingDate : Option Int)
    (startDate endDate : Option Int) (minBookingDays : Int)
    (unavailableDates : List Int) (isDateBlockedProps : Int → Bool)
    (date : Int) : Bool :=
  isDateBlockedFnCore date minBookingDate maxBookingDate startDate endDate
    minBookingDays []
    (fun d => isInUnavailableDates unavailableDates d || isDateBlockedProps d)

/-! ## Month Window Manager

An `ActiveMonth` carries `{year, month, date: startOfMonth}`; we embed
it as the absolute month index `12 * year + month : Int`.  `addMonths`
on a first-of-month anchor is then `+` (no day clamping can occur on
day 1), and `getMonthInfo` is the identity on the index. -/

/-- `getInitialMonths(numberOfMonths, startDate)`: seeds `[anchor]` and,
when `numberOfMonths > 1`, appends `numberOfMonths - 1` times the month
after the last entry. -/
def getInitialMonths (numberOfMonths : Nat) (anchor : Int) : List Int :=
  if numberOfMonths > 1 then
    (List.range (numberOfMonths - 1)).foldl
      (fun acc _ => acc ++ [acc.getLast?.getD 0 + 1]) [anchor]
  else [anchor]

/-- `getNextActiveMonth(activeMonths, numberOfMonths, counter)`.

The source keeps a mutable cursor `prevMonth`: it starts from the last
(resp. first) entry of the window when `counter > 0` (resp. otherwise),
moves by `counter` on the first iteration and by `+1` when
`counter >= 0` / `-1` otherwise afterwards, appending when `counter > 0`
and prepending otherwise.  `gnamStep` is one iteration of that loop,
carrying the cursor as the second component. -/
def gnamStep (counter : Int) (p : List Int × Int) : List Int × Int :=
  let n : Int :=
    if p.1.isEmpty then p.2 + counter
    else if counter ≥ 0 then p.2 + 1 else p.2 + (-1)
  (if counter > 0 then p.1 ++ [n] else n :: p.1, n)

/-- The whole loop of `getNextActiveMonth`, seeded from the last (resp.
first) entry of the window when `counter > 0` (resp. otherwise).  (The
source indexes `activeMonths[0]` / `[length - 1]` unconditionally; an
empty window would crash there — the `getD 0` is never reached in the
uses below.) -/
def getNextActiveMonth (activeMonths : List Int) (numberOfMonths : Nat)
    (counter : Int) : List Int :=
  let start : Int :=
    if counter > 0 then activeMonths.getLast?.getD 0 else activeMonths.head?.getD 0
  ((List.range numberOfMonths).foldl (fun p _ => gnamStep counter p) ([], start)).1

/-- `goToPreviousMonths`: shift with counter `-1`. -/
def goToPreviousMonthsWindow (activeMonths : List Int) (numberOfMonths : Nat) : List Int :=
  getNextActiveMonth activeMonths numberOfMonths (-1)

/-- `goToNextMonths`: shift with counter `1`. -/
def goToNextMonthsWindow (activeMonths : List Int) (numberOfMonths : Nat) : List Int :=
  getNextActiveMonth activeMonths numberOfMonths 1

/-- `goToPreviousYear(numYears = 1)`: counter `-(numYears*12 - numberOfMonths + 1)`. -/
def goToPreviousYearWindow (activeMonths : List Int) (numberOfMonths : Nat)
    (numYears : Nat) : List Int :=
  getNextActiveMonth activeMonths numberOfMonths
    (-((numYears : Int) * 12 - (numberOfMonths : Int) + 1))

/-- `goToNextYear(numYears = 1)`: counter `numYears*12 - numberOfMonths + 1`. -/
def goToNextYearWindow (activeMonths : List Int) (numberOfMonths : Nat)
    (numYears : Nat) : List Int :=
  getNextActiveMonth activeMonths numberOfMonths
    ((numYears : Int) * 12 - (numberOfMonths : Int) + 1)

/-- The `n` consecutive months starting at `a` — what "a window of `n`
chronologically consecutive months in increasing order" means. -/
def consecutiveFrom (a : Int) (n : Nat) : List Int :=
  (List.range n).map (fun (i : Nat) => a + (i : Int))

/-- Each entry of the list is followed by the next calendar month:
"chronologically consecutive in increasing order with no gaps". -/
def consecutiveChain : List Int → Bool
  | a :: b :: rest => (b == a + 1) && consecutiveChain (b :: rest)
  | _ => true

/-! ## Focus handling (`onDateFocus`)

`onDateFocus` compares the incoming date with the current `focusedDate`
through the identifier `isSameMonth` — which the source imports from
`date-fns/isSameDay`, so the comparison actually performed is
day-equality.  To state both behaviours a date here carries its month
anchor and its day-of-month. -/

/-- A calendar date as the focus logic observes it: its month anchor
(absolute month index) and its day of month. -/
structure CalDate where
  month : Int
  day : Int
deriving DecidableEq, Repr

/-- `date-fns` `isSameDay` on `CalDate`. -/
def isSameDayCal (a b : CalDate) : Bool :=
  a == b

/-- What the hook's `isSameMonth` identifier actually denotes: the source
imports it from `date-fns/isSameDay`, so it is day-equality. -/
def isSameMonthAsImported (a b : CalDate) : Bool :=
  isSameDayCal a b

/-- Genuine month equality (what `date-fns/isSameMonth` would compute). -/
def isSameMonthCal (a b : CalDate) : Bool :=
  a.month == b.month

/-- `onDateFocus(date)` as a pure function on `(focusedDate, activeMonths)`:
sets `focusedDate := date` and re-seeds the window when there is no
focused date or `isSameMonth(date, focusedDate)` is false — where
`isSameMonth` is the mis-imported day-equality. -/
def onDateFocus (numberOfMonths : Nat) (focusedDate : Option CalDate)
    (activeMonths : List Int) (date : CalDate) : Option CalDate × List Int :=
  (some date,
   match focusedDate with
   | none => getInitialMonths numberOfMonths date.month
   | some fd =>
     if !isSameMonthAsImported date fd then getInitialMonths numberOfMonths date.month
     else activeMonths)

/-- The guard of the month-window re-seed at the end of `onDateSelect`:
`focusedInput !== END_DATE && (!focusedDate || !isSameMonth(date, focusedDate))`
(again with `isSameMonth` denoting day-equality). -/
def onDateSelectReseeds (focusedInput : Option FocusedInput)
    (focusedDate : Option CalDate) (date : CalDate) : Bool :=
  !(focusedInput == some .endDate)
    && (match focusedDate with
        | none => true
        | some fd => !isSameMonthAsImported date fd)

/-! ## Lemmas about the Month Window Manager -/

lemma consecutiveFrom_succ_append (a : Int) (t : Nat) :
    consecutiveFrom a (t + 1) = consecutiveFrom a t ++ [a + (t : Int)] := by
  simp [consecutiveFrom, List.range_succ]

lemma consecutiveFrom_succ_cons (a : Int) (t : Nat) :
    consecutiveFrom a (t + 1) = a :: consecutiveFrom (a + 1) t := by
  unfold consecutiveFrom
  rw [List.range_succ_eq_map, List.map_cons, List.map_map]
  congr 1
  · simp
  · apply List.map_congr_left
    intro x _
    simp only [Function.comp_apply]
    push_cast
    ring

lemma consecutiveFrom_length (a : Int) (t : Nat) :
    (consecutiveFrom a t).length = t := by
  simp [consecutiveFrom]

lemma consecutiveFrom_head (a : Int) (t : Nat) :
    (consecutiveFrom a (t + 1)).head?.getD 0 = a := by
  rw [consecutiveFrom_succ_cons]
  rfl

lemma consecutiveFrom_getLast (a : Int) (t : Nat) :
    (consecutiveFrom a (t + 1)).getLast?.getD 0 = a + (t : Int) := by
  rw [consecutiveFrom_succ_append]
  simp

lemma consecutiveFrom_ne_nil (a : Int) (t : Nat) :
    (consecutiveFrom a (t + 1)).isEmpty = false := by
  rw [consecutiveFrom_succ_cons]
  rfl

lemma consecutiveChain_consecutiveFrom (t : Nat) : ∀ a : Int,
    consecutiveChain (consecutiveFrom a t) = true := by
  induction t with
  | zero => intro a; rfl
  | succ n ih =>
    intro a
    rw [consecutiveFrom_succ_cons]
    cases n with
    | zero => rfl
    | succ m =>
      have h := ih (a + 1)
      rw [consecutiveFrom_succ_cons] at h
      rw [consecutiveFrom_succ_cons]
      simp only [consecutiveChain, h, Bool.and_true]
      simp

lemma gnam_fold_pos (r : Int) (hr : 0 < r) (n0 : Int) : ∀ t : Nat,
    (List.range t).foldl (fun p _ => gnamStep r p) ([], n0)
      = (consecutiveFrom (n0 + r) t,
          if t = 0 then n0 else n0 + r + (t : Int) - 1) := by
  intro t
  induction t with
  | zero => simp [consecutiveFrom]
  | succ s ih =>
    rw [List.range_succ, List.foldl_append, ih]
    cases s with
    | zero =>
      simp only [List.foldl_cons, List.foldl_nil, gnamStep, consecutiveFrom]
      simp [hr, List.range_succ]
    | succ m =>
      have h1 : ¬ (m + 1 = 0) := by omega
      have h2 : ¬ (m + 1 + 1 = 0) := by omega
      simp only [List.foldl_cons, List.foldl_nil, gnamStep,
        consecutiveFrom_ne_nil, Bool.false_eq_true, if_false, if_pos hr,
        if_pos (le_of_lt hr), if_neg h1, if_neg h2, Prod.mk.injEq]
      have hx : n0 + r + ((m + 1 : Nat) : Int) - 1 + 1
          = n0 + r + ((m + 1 : Nat) : Int) := by ring
      constructor
      · rw [hx]
        rw [show consecutiveFrom (n0 + r) (m + 1 + 1)
            = consecutiveFrom (n0 + r) (m + 1) ++ [n0 + r + ((m + 1 : Nat) : Int)]
          from consecutiveFrom_succ_append (n0 + r) (m + 1)]
      · rw [hx]
        push_cast
        ring

lemma gnam_fold_neg (r : Int) (hr : r < 0) (n0 : Int) : ∀ t : Nat,
    (List.range t).foldl (fun p _ => gnamStep r p) ([], n0)
      = (consecutiveFrom (n0 + r - (t : Int) + 1) t,
          if t = 0 then n0 else n0 + r - (t : Int) + 1) := by
  intro t
  have hrge : ¬ (r ≥ 0) := by omega
  have hrgt : ¬ (r > 0) := by omega
  induction t with
  | zero => simp [consecutiveFrom]
  | succ s ih =>
    rw [List.range_succ, List.foldl_append, ih]
    cases s with
    | zero =>
      simp only [List.foldl_cons, List.foldl_nil, gnamStep, consecutiveFrom]
      simp [hrgt, List.range_succ]
    | succ m =>
      have h1 : ¬ (m + 1 = 0) := by omega
      have h2 : ¬ (m + 1 + 1 = 0) := by omega
      simp only [List.foldl_cons, List.foldl_nil, gnamStep,
        consecutiveFrom_ne_nil, Bool.false_eq_true, if_false, if_neg hrgt,
        if_neg hrge, if_neg h1, if_neg h2, Prod.mk.injEq]
      have hA : n0 + r - ((m + 1 : Nat) : Int) + 1 + -1
          = n0 + r - ((m + 1 + 1 : Nat) : Int) + 1 := by push_cast; ring
      have hA1 : n0 + r - ((m + 1 + 1 : Nat) : Int) + 1 + 1
          = n0 + r - ((m + 1 : Nat) : Int) + 1 := by push_cast; ring
      constructor
      · rw [hA, show consecutiveFrom (n0 + r - ((m + 1 + 1 : Nat) : Int) + 1) (m + 1 + 1)
            = (n0 + r - ((m + 1 + 1 : Nat) : Int) + 1)
                :: consecutiveFrom (n0 + r - ((m + 1 + 1 : Nat) : Int) + 1 + 1) (m + 1)
          from consecutiveFrom_succ_cons _ (m + 1), hA1]
      · exact hA

lemma getNextActiveMonth_pos (w : List Int) (t : Nat) (r : Int) (hr : 0 < r) :
    getNextActiveMonth w t r = consecutiveFrom (w.getLast?.getD 0 + r) t := by
  unfold getNextActiveMonth
  simp only [if_pos hr, gnam_fold_pos r hr]

lemma getNextActiveMonth_neg (w : List Int) (t : Nat) (r : Int) (hr : r < 0) :
    getNextActiveMonth w t r
      = consecutiveFrom (w.head?.getD 0 + r - (t : Int) + 1) t := by
  unfold getNextActiveMonth
  simp only [if_neg (by omega : ¬ r > 0), gnam_fold_neg r hr]

lemma getInitialMonths_closed (t : Nat) (ht : 1 ≤ t) (a : Int) :
    getInitialMonths t a = consecutiveFrom a t := by
  have key : ∀ k : Nat, (List.range k).foldl
      (fun acc _ => acc ++ [acc.getLast?.getD 0 + 1]) [a]
        = consecutiveFrom a (k + 1) := by
    intro k
    induction k with
    | zero => simp [consecutiveFrom, List.range_succ]
    | succ m ih =>
      rw [List.range_succ, List.foldl_append, ih,
        List.foldl_cons, List.foldl_nil]
      rw [show consecutiveFrom a (m + 1 + 1)
          = consecutiveFrom a (m + 1) ++ [a + ((m + 1 : Nat) : Int)]
        from consecutiveFrom_succ_append a (m + 1)]
      rw [consecutiveFrom_getLast]
      congr 2
      push_cast
      ring
  unfold getInitialMonths
  rcases Nat.lt_or_ge 1 t with h | h
  · rw [if_pos h, key (t - 1)]
    congr 1
    omega
  · have ht1 : t = 1 := by omega
    subst ht1
    simp [consecutiveFrom, List.range_succ]

lemma gnam_length_chain (w : List Int) (t : Nat) (r : Int) (hr : r ≠ 0) :
    (getNextActiveMonth w t r).length = t
      ∧ consecutiveChain (getNextActiveMonth w t r) = true := by
  rcases lt_or_gt_of_ne hr with h | h
  · rw [getNextActiveMonth_neg _ _ _ h]
    exact ⟨consecutiveFrom_length _ _, consecutiveChain_consecutiveFrom _ _⟩
  · rw [getNextActiveMonth_pos _ _ _ h]
    exact ⟨consecutiveFrom_length _ _, consecutiveChain_consecutiveFrom _ _⟩

/-- C6 (counterexample): for the two-month window `[0, 1]` (January and
February 1970, say), `getNextActiveMonth` with `deltaMonths = 1` returns
`[2, 3]`, not the input window shifted by one month (`[1, 2]`): the
entries are not shifted by exactly `deltaMonths`. -/
theorem C6_counterexample :
    getNextActiveMonth [0, 1] 2 1 = [2, 3]
    ∧ getNextActiveMonth [0, 1] 2 1 ≠ [0 + 1, 1 + 1] := by decide

/-- C6 (amended): `getNextActiveMonth(window, numberOfMonths, delta)` on a
window of `numberOfMonths` consecutive months returns `numberOfMonths`
consecutive months which, for `delta > 0`, start at the **last** input
month plus `delta`, and for `delta < 0`, end at the **first** input month
plus `delta`.  Hence the window start moves by `delta + numberOfMonths - 1`
months forward (resp. the mirror image backward), and only for
`numberOfMonths = 1` is the whole window shifted by exactly `delta`. -/
theorem C6_amended_window_shift (a : Int) (t : Nat) (r : Int) (w : List Int)
    (hw : w = consecutiveFrom a t) (ht : 1 ≤ t) (hr : r ≠ 0) :
    getNextActiveMonth w t r
      = (if 0 < r then consecutiveFrom (a + ((t : Int) - 1) + r) t
         else consecutiveFrom (a + r - ((t : Int) - 1)) t)
    ∧ (getNextActiveMonth w t r).length = t := by
  obtain ⟨s, rfl⟩ : ∃ s, t = s + 1 := ⟨t - 1, by omega⟩
  subst hw
  refine ⟨?_, (gnam_length_chain _ _ _ hr).1⟩
  rcases lt_or_gt_of_ne hr with hneg | hpos
  · rw [getNextActiveMonth_neg _ _ _ hneg, consecutiveFrom_head,
      if_neg (by omega : ¬ 0 < r)]
    congr 1
    push_cast
    ring
  · rw [getNextActiveMonth_pos _ _ _ hpos, consecutiveFrom_getLast, if_pos hpos]
    congr 1
    push_cast
    ring

/-- C6 witness: the amended shift law evaluated on the window `[0, 1]`
with `delta = 1`. -/
theorem C6_amended_witness :
    ([0, 1] : List Int) = consecutiveFrom 0 2 ∧ 1 ≤ 2 ∧ (1 : Int) ≠ 0 ∧
    (getNextActiveMonth [0, 1] 2 1
        = (if 0 < (1 : Int) then consecutiveFrom (0 + ((2 : Int) - 1) + 1) 2
           else consecutiveFrom (0 + 1 - ((2 : Int) - 1)) 2)
      ∧ (getNextActiveMonth [0, 1] 2 1).length = 2) :=
  ⟨by decide, by decide, by decide,
    C6_amended_window_shift 0 2 1 [0, 1] (by decide) (by decide) (by decide)⟩

/-- C7: on any window of `numberOfMonths` consecutive months,
`goToNextMonths` followed by `goToPreviousMonths` (counter `+1` then `-1`,
the second applied to the first's output) restores the original window. -/
theorem C7_next_prev_inverse (a : Int) (t : Nat) (w : List Int)
    (hw : w = consecutiveFrom a t) (ht : 1 ≤ t) :
    goToPreviousMonthsWindow (goToNextMonthsWindow w t) t = w := by
  obtain ⟨s, rfl⟩ : ∃ s, t = s + 1 := ⟨t - 1, by omega⟩
  subst hw
  unfold goToPreviousMonthsWindow goToNextMonthsWindow
  rw [getNextActiveMonth_pos (consecutiveFrom a (s + 1)) (s + 1) 1 (by omega),
    consecutiveFrom_getLast]
  rw [getNextActiveMonth_neg _ (s + 1) (-1) (by omega), consecutiveFrom_head]
  congr 1
  push_cast
  ring

/-- C7 witness: the inverse law evaluated on the window `[5, 6]`. -/
theorem C7_next_prev_inverse_witness :
    ([5, 6] : List Int) = consecutiveFrom 5 2 ∧ 1 ≤ 2 ∧
    goToPreviousMonthsWindow (goToNextMonthsWindow [5, 6] 2) 2 = [5, 6] :=
  ⟨by decide, by decide, C7_next_prev_inverse 5 2 [5, 6] (by decide) (by decide)⟩

/-- C8 (counterexample): with `numberOfMonths = 13`, `goToNextYear(1)` uses
counter `12·1 − 13 + 1 = 0`, and `getNextActiveMonth` then builds the
window by prepending increasing months: the result still has 13 entries
but is in strictly decreasing order, not chronologically increasing. -/
theorem C8_counterexample :
    (goToNextYearWindow (consecutiveFrom 0 13) 13 1).length = 13
    ∧ consecutiveChain (goToNextYearWindow (consecutiveFrom 0 13) 13 1) = false := by
  decide

/-- C8 (amended): after `getInitialMonths` and after every navigation call
whose counter is nonzero — `goToPreviousMonths`/`goToNextMonths` always,
`goToPreviousYear(n)`/`goToNextYear(n)` whenever
`12·n − numberOfMonths + 1 ≠ 0` — the window has exactly `numberOfMonths`
entries in chronologically consecutive increasing order. -/
theorem C8_amended_window_invariant (a : Int) (t : Nat) (y : Nat) (w : List Int)
    (hw : w = consecutiveFrom a t) (ht : 1 ≤ t)
    (hy : ((y : Int) * 12 - (t : Int) + 1) ≠ 0) :
    ((getInitialMonths t a).length = t
      ∧ consecutiveChain (getInitialMonths t a) = true)
    ∧ ((goToPreviousMonthsWindow w t).length = t
      ∧ consecutiveChain (goToPreviousMonthsWindow w t) = true)
    ∧ ((goToNextMonthsWindow w t).length = t
      ∧ consecutiveChain (goToNextMonthsWindow w t) = true)
    ∧ ((goToPreviousYearWindow w t y).length = t
      ∧ consecutiveChain (goToPreviousYearWindow w t y) = true)
    ∧ ((goToNextYearWindow w t y).length = t
      ∧ consecutiveChain (goToNextYearWindow w t y) = true) := by
  unfold goToPreviousMonthsWindow goToNextMonthsWindow
    goToPreviousYearWindow goToNextYearWindow
  refine ⟨?_, ?_, ?_, ?_, ?_⟩
  · rw [getInitialMonths_closed t ht a]
    exact ⟨consecutiveFrom_length _ _, consecutiveChain_consecutiveFrom _ _⟩
  · exact gnam_length_chain _ _ _ (by omega)
  · exact gnam_length_chain _ _ _ (by omega)
  · exact gnam_length_chain _ _ _ (by omega)
  · exact gnam_length_chain _ _ _ hy

/-- C8 witness: the amended invariant evaluated with a two-month window
and one-year jumps. -/
theorem C8_amended_witness :
    ([0, 1] : List Int) = consecutiveFrom 0 2 ∧ 1 ≤ 2
    ∧ (((1 : Nat) : Int) * 12 - ((2 : Nat) : Int) + 1) ≠ 0
    ∧ (((getInitialMonths 2 0).length = 2
        ∧ consecutiveChain (getInitialMonths 2 0) = true)
      ∧ ((goToPreviousMonthsWindow [0, 1] 2).length = 2
        ∧ consecutiveChain (goToPreviousMonthsWindow [0, 1] 2) = true)
      ∧ ((goToNextMonthsWindow [0, 1] 2).length = 2
        ∧ consecutiveChain (goToNextMonthsWindow [0, 1] 2) = true)
      ∧ ((goToPreviousYearWindow [0, 1] 2 1).length = 2
        ∧ consecutiveChain (goToPreviousYearWindow [0, 1] 2 1) = true)
      ∧ ((goToNextYearWindow [0, 1] 2 1).length = 2
        ∧ consecutiveChain (goToNextYearWindow [0, 1] 2 1) = true)) :=
  ⟨by decide, by decide, by decide,
    C8_amended_window_invariant 0 2 1 [0, 1] (by decide) (by decide) (by decide)⟩

/-! ## Lemmas about the selection machinery -/

lemma mem_eachDayOfInterval {s e x : Int} :
    x ∈ eachDayOfInterval s e ↔ s ≤ x ∧ x ≤ e := by
  unfold eachDayOfInterval
  simp only [List.mem_map, List.mem_range]
  constructor
  · rintro ⟨i, hi, rfl⟩
    omega
  · rintro ⟨h1, h2⟩
    exact ⟨(x - s).toNat, by omega, by omega⟩

lemma eachDayOfInterval_any_false {b : Int → Bool} {s e : Int}
    (h : ∀ x, s ≤ x → x ≤ e → b x = false) :
    (eachDayOfInterval s e).any b = false := by
  rw [List.any_eq_false]
  intro x hx
  rw [mem_eachDayOfInterval] at hx
  simp [h x hx.1 hx.2]

lemma canSelectRange_some_le {mbd : Int} {b : Int → Bool} {d e : Int}
    (h : canSelectRange mbd false none none b d (some e) = true) :
    ¬ (e < d + (mbd - 1)) := by
  intro hlt
  unfold canSelectRange at h
  simp [hlt] at h

lemma canSelectRange_one_none {b : Int → Bool} {d : Int} (hb : b d = false) :
    canSelectRange 1 false none none b d none = true := by
  unfold canSelectRange
  simp [hb]

lemma canSelectRange_one_some {b : Int → Bool} {d e : Int}
    (hde : d ≤ e) (hall : ∀ x, d ≤ x → x ≤ e → b x = false) :
    canSelectRange 1 false none none b d (some e) = true := by
  unfold canSelectRange
  have h1 : (eachDayOfInterval d e).any b = false := eachDayOfInterval_any_false hall
  have h2 : ¬ (e < d) := by omega
  simp [h1, h2]

lemma onDateSelectEmit_focusNone (mbd : Int) (exact : Bool)
    (minB maxB : Option Int) (b : Int → Bool) (sd ed : Option Int) (d : Int) :
    onDateSelectEmit mbd exact minB maxB b sd ed none d = none := by
  unfold onDateSelectEmit
  cases sd <;> rfl

/-- C1: for every `onDateSelect` or `onResetDates` call made in a state
whose `startDate`/`endDate` satisfy the ordering invariant (and
`minBookingDays` a positive integer, as the data model requires), any
state emitted through `onDatesChange` again satisfies: whenever both
`startDate` and `endDate` are non-null, `startDate ≤ endDate`. -/
theorem C1_selection_ordering (mbd : Int) (exact : Bool) (minB maxB : Option Int)
    (b : Int → Bool) (sd ed : Option Int) (fi : Option FocusedInput) (d : Int)
    (hmbd : 1 ≤ mbd)
    (hord : ∀ s e : Int, sd = some s → ed = some e → s ≤ e) :
    (∀ out : OnDatesChangeProps,
      onDateSelectEmit mbd exact minB maxB b sd ed fi d = some out →
      ∀ s e : Int, out.startDate = some s → out.endDate = some e → s ≤ e)
    ∧ (∀ s e : Int,
        onResetDatesEmit.startDate = some s → onResetDatesEmit.endDate = some e →
        s ≤ e) := by
  constructor
  · intro out hout s e hs he
    unfold onDateSelectEmit at hout
    split at hout
    · -- exact-length single commit: endDate = date + (minBookingDays - 1)
      obtain rfl := Option.some.inj hout
      obtain rfl := Option.some.inj hs
      obtain rfl := Option.some.inj he
      omega
    · split at hout
      · -- redirect: endDate cleared
        obtain rfl := Option.some.inj hout
        exact Option.noConfusion he
      · split at hout
        · -- start pick keeping the existing endDate
          rename_i h3
          obtain rfl := Option.some.inj hout
          obtain rfl := Option.some.inj hs
          simp only [Bool.and_eq_true] at h3
          have hcsr := h3.2
          have he' : ed = some e := he
          rw [he'] at hcsr
          have := canSelectRange_some_le hcsr
          omega
        · split at hout
          · -- start pick with no endDate
            obtain rfl := Option.some.inj hout
            exact Option.noConfusion he
          · -- end pick completing the range, guarded by ¬(date < startDate)
            split at hout
            · rename_i sd' heq
              split at hout
              · rename_i h5
                obtain rfl := Option.some.inj hout
                obtain rfl := Option.some.inj hs
                obtain rfl := Option.some.inj he
                simp only [Bool.and_eq_true] at h5
                have hnb := h5.1.1.2
                simp only [Bool.not_eq_true', decide_eq_false_iff_not] at hnb
                omega
              · exact Option.noConfusion hout
            · exact Option.noConfusion hout
  · intro s e hs _
    exact Option.noConfusion hs

/-- C1 witness: the ordering invariant applied to a concrete non-exact
start-date pick. -/
theorem C1_selection_ordering_witness :
    1 ≤ (1 : Int) ∧
    ((∀ out : OnDatesChangeProps,
        onDateSelectEmit 1 false none none (fun _ => false) none none
          (some FocusedInput.startDate) 5 = some out →
        ∀ s e : Int, out.startDate = some s → out.endDate = some e → s ≤ e)
      ∧ (∀ s e : Int,
          onResetDatesEmit.startDate = some s → onResetDatesEmit.endDate = some e →
          s ≤ e)) :=
  ⟨by decide,
    C1_selection_ordering 1 false none none (fun _ => false) none none
      (some FocusedInput.startDate) 5 (by decide)
      (fun _ _ hs _ => Option.noConfusion hs)⟩

/-- C10: when `focusedInput` is `null` (the state after a completed range),
`onDateSelect` never calls `onDatesChange`, for every date and every
configuration: the selection can only change after the caller re-opens
`focusedInput`. -/
theorem C10_completed_selection_frozen (mbd : Int) (exact : Bool)
    (minB maxB : Option Int) (b : Int → Bool) (sd ed : Option Int) (d : Int) :
    onDateSelectEmit mbd exact minB maxB b sd ed none d = none :=
  onDateSelectEmit_focusNone mbd exact minB maxB b sd ed d

/-- C2 (counterexample): with `exactMinBookingDays = false`,
`minBookingDate = day 10` and default `minBookingDays = 1`, selecting
day 5 — strictly before `minBookingDate` — from an empty selection with
`focusedInput = START` is **not** a no-op: `onDatesChange` is invoked
with `startDate = 5`. -/
theorem C2_counterexample :
    onDateSelectEmit 1 false (some 10) none (fun _ => false) none none
      (some FocusedInput.startDate) 5
      = some ⟨some FocusedInput.endDate, some 5, none⟩ := by decide

/-- C2 (amended): in non-exact mode `onDateSelect` never consults
`minBookingDate`: the non-exact branches call `canSelectRange` without the
bounds.  With `focusedInput = START`, an empty selection,
`minBookingDays = 1` and `d` not blocked by the caller, `onDatesChange`
is invoked with `{startDate: d, endDate: null, focusedInput: END}` even
when `d` is strictly before the configured `minBookingDate`.  (The no-op
rejection of out-of-bounds dates happens only in exact mode.) -/
theorem C2_amended_minBookingDate_not_checked (m : Int) (maxB : Option Int)
    (b : Int → Bool) (d : Int) (hb : b d = false) (hlt : d < m) :
    onDateSelectEmit 1 false (some m) maxB b none none
      (some FocusedInput.startDate) d
      = some ⟨some FocusedInput.endDate, some d, none⟩ := by
  have h3 := canSelectRange_one_none hb
  simp [onDateSelectEmit, h3]

/-- C2 witness: the amended statement at `minBookingDate = 10`, `d = 5`. -/
theorem C2_amended_witness :
    (fun _ : Int => false) 5 = false ∧ (5 : Int) < 10 ∧
    onDateSelectEmit 1 false (some 10) none (fun _ => false) none none
      (some FocusedInput.startDate) 5
      = some ⟨some FocusedInput.endDate, some 5, none⟩ :=
  ⟨rfl, by decide,
    C2_amended_minBookingDate_not_checked 10 none (fun _ => false) 5 rfl (by decide)⟩

lemma canSelectRange_exact3 {minB maxB : Option Int} {b : Int → Bool} {D : Int}
    (hb0 : b D = false) (hb1 : b (D + 1) = false) (hb2 : b (D + 2) = false)
    (hmin : ∀ m, minB = some m → m ≤ D)
    (hmax : ∀ m, maxB = some m → D + 2 ≤ m) :
    canSelectRange 3 true minB maxB b D none = true := by
  have hint : eachDayOfInterval D (D + 2) = [D, D + 1, D + 2] := by
    unfold eachDayOfInterval
    rw [show D + 2 + 1 - D = 3 by ring, show ((3 : Int)).toNat = 3 from rfl]
    simp [List.range_succ]
  unfold canSelectRange
  cases minB with
  | none =>
    cases maxB with
    | none => simp [hint, hb0, hb1, hb2]
    | some q =>
      have hq : ¬ (D + 2 > q) := by have := hmax q rfl; omega
      simp [hint, hb0, hb1, hb2, hq]
  | some p =>
    have hp : ¬ (D < p + (-1)) := by have := hmin p rfl; omega
    cases maxB with
    | none => simp [hint, hb0, hb1, hb2, hp]
    | some q =>
      have hq : ¬ (D + 2 > q) := by have := hmax q rfl; omega
      simp [hint, hb0, hb1, hb2, hp, hq]

/-- C3: with `exactMinBookingDays = true` and `minBookingDays = 3`, if `D`,
`D+1`, `D+2` are all unblocked and `[D, D+2]` lies within the configured
bounds, a single `onDateSelect(D)` with `focusedInput` START or END emits
`startDate = D`, `endDate = D + 2`, `focusedInput = null`. -/
theorem C3_exact_mode_commit (minB maxB : Option Int) (b : Int → Bool)
    (sd ed : Option Int) (fi : Option FocusedInput) (D : Int)
    (hfi : fi = some FocusedInput.startDate ∨ fi = some FocusedInput.endDate)
    (hb0 : b D = false) (hb1 : b (D + 1) = false) (hb2 : b (D + 2) = false)
    (hmin : ∀ m, minB = some m → m ≤ D)
    (hmax : ∀ m, maxB = some m → D + 2 ≤ m) :
    onDateSelectEmit 3 true minB maxB b sd ed fi D
      = some ⟨none, some D, some (D + 2)⟩ := by
  have hcsr := canSelectRange_exact3 hb0 hb1 hb2 hmin hmax
  rcases hfi with rfl | rfl <;> simp [onDateSelectEmit, hcsr]

/-- C3 witness: the exact-mode commit at `D = 0` with bounds `[0, 2]`. -/
theorem C3_exact_mode_commit_witness :
    ((some (0 : Int) : Option Int) = some 0 ∨ (some (0 : Int) : Option Int) = some 2)
    ∧ (fun _ : Int => false) 0 = false
    ∧ (fun _ : Int => false) ((0 : Int) + 1) = false
    ∧ (fun _ : Int => false) ((0 : Int) + 2) = false
    ∧ onDateSelectEmit 3 true (some 0) (some 2) (fun _ => false) none none
        (some FocusedInput.startDate) 0
      = some ⟨none, some 0, some (0 + 2)⟩ :=
  ⟨Or.inl rfl, rfl, rfl, rfl,
    C3_exact_mode_commit (some 0) (some 2) (fun _ => false) none none
      (some FocusedInput.startDate) 0 (Or.inl rfl) rfl rfl rfl
      (by simp) (by simp)⟩

/-- C4 (counterexample): feeding each emitted state back as the next input
state with `D1 = 0`, `D2 = 5`, `D3 = 10` and nothing blocked: the first
two calls emit as the claim says, but the second emission sets
`focusedInput = null`, so the third call `onDateSelect(10)` emits
nothing — it does not reset the selection to `startDate = 10`. -/
theorem C4_counterexample :
    onDateSelectEmit 1 false none none (fun _ => false) none none
        (some FocusedInput.startDate) 0
      = some ⟨some FocusedInput.endDate, some 0, none⟩
    ∧ onDateSelectEmit 1 false none none (fun _ => false) (some 0) none
        (some FocusedInput.endDate) 5
      = some ⟨none, some 0, some 5⟩
    ∧ onDateSelectEmit 1 false none none (fun _ => false) (some 0) (some 5) none 10
      = none := by decide

/-- C4 (amended): with default constraints, `onDateSelect(D1)` then
`onDateSelect(D2)` (with `D1 < D2`, `[D1, D2]` unblocked) emits
`startDate = D1, endDate = null, focusedInput = END` and then
`startDate = D1, endDate = D2, focusedInput = null`.  With the emitted
`focusedInput = null` fed back, any further `onDateSelect` is a no-op;
the reset to `startDate = D3, endDate = null, focusedInput = END`
happens once the caller sets `focusedInput` back to START and picks an
unblocked `D3` after `D2`. -/
theorem C4_amended_two_step_then_reset (b : Int → Bool) (D1 D2 D3 : Int)
    (h1 : b D1 = false) (h12 : D1 < D2)
    (hrange : ∀ x, D1 ≤ x → x ≤ D2 → b x = false)
    (h3 : b D3 = false) (h23 : D2 < D3) :
    onDateSelectEmit 1 false none none b none none (some FocusedInput.startDate) D1
      = some ⟨some FocusedInput.endDate, some D1, none⟩
    ∧ onDateSelectEmit 1 false none none b (some D1) none (some FocusedInput.endDate) D2
      = some ⟨none, some D1, some D2⟩
    ∧ (∀ d : Int,
        onDateSelectEmit 1 false none none b (some D1) (some D2) none d = none)
    ∧ onDateSelectEmit 1 false none none b (some D1) (some D2)
        (some FocusedInput.startDate) D3
      = some ⟨some FocusedInput.endDate, some D3, none⟩ := by
  refine ⟨?_, ?_,
    fun d => onDateSelectEmit_focusNone 1 false none none b (some D1) (some D2) d, ?_⟩
  · simp [onDateSelectEmit, canSelectRange_one_none h1]
  · have hcsr : canSelectRange 1 false none none b D1 (some D2) = true :=
      canSelectRange_one_some (le_of_lt h12) hrange
    have hnb : ¬ (D2 < D1) := by omega
    simp [onDateSelectEmit, hcsr, hnb]
  · have hcsr := canSelectRange_one_none h3
    simp [onDateSelectEmit, hcsr, h23]

/-- C4 witness: the amended flow at `D1 = 0`, `D2 = 5`, `D3 = 10` with
nothing blocked. -/
theorem C4_amended_witness :
    (fun _ : Int => false) 0 = false ∧ (0 : Int) < 5
    ∧ (∀ x : Int, (0 : Int) ≤ x → x ≤ 5 → (fun _ : Int => false) x = false)
    ∧ (fun _ : Int => false) 10 = false ∧ (5 : Int) < 10
    ∧ (onDateSelectEmit 1 false none none (fun _ => false) none none
          (some FocusedInput.startDate) 0
        = some ⟨some FocusedInput.endDate, some 0, none⟩
      ∧ onDateSelectEmit 1 false none none (fun _ => false) (some 0) none
          (some FocusedInput.endDate) 5
        = some ⟨none, some 0, some 5⟩
      ∧ (∀ d : Int,
          onDateSelectEmit 1 false none none (fun _ => false) (some 0) (some 5)
            none d = none)
      ∧ onDateSelectEmit 1 false none none (fun _ => false) (some 0) (some 5)
          (some FocusedInput.startDate) 10
        = some ⟨some FocusedInput.endDate, some 10, none⟩) :=
  ⟨rfl, by decide, fun _ _ _ => rfl, rfl, by decide,
    C4_amended_two_step_then_reset (fun _ => false) 0 5 10 rfl (by decide)
      (fun _ _ _ => rfl) rfl (by decide)⟩

/-- C5 (counterexample): in the open-range configuration — `startDate`
set, no `endDate`, `minBookingDays = 2`, no bounds, nothing blocked by
the caller — `isDateBlocked(startDate)` is `true`: the reserved
minimum-stay window `[startDate, startDate + minBookingDays - 2]`
includes `startDate` itself, contrary to the claim. -/
theorem C5_counterexample :
    isDateBlockedHook none none (some 0) none 2 [] (fun _ => false) 0 = true := by
  decide

/-- C5 (amended): `isDateBlocked(date)` is true iff `date` is outside
`[minBookingDate, maxBookingDate]`, or in `unavailableDates`, or blocked
by the caller's predicate, or — whenever a `startDate` exists with no
`endDate` and `minBookingDays > 1`, regardless of `exactMinBookingDays`
(which the predicate never receives) — `date` lies in the reserved
window `[startDate, startDate + minBookingDays - 2]`, which includes
`startDate` itself. -/
theorem C5_amended_blocked_iff (minB maxB : Option Int) (sd ed : Option Int)
    (mbd : Int) (u : List Int) (ub : Int → Bool) (d : Int) :
    isDateBlockedHook minB maxB sd ed mbd u ub d = true
      ↔ ((∃ l, minB = some l ∧ d < l)
        ∨ (∃ p, maxB = some p ∧ p < d)
        ∨ d ∈ u ∨ ub d = true
        ∨ (∃ o, sd = some o ∧ ed = none ∧ 1 < mbd
            ∧ o ≤ d ∧ d ≤ o + (mbd - 2))) := by
  unfold isDateBlockedHook isDateBlockedFnCore isInUnavailableDates isWithinInterval
  cases minB <;> cases maxB <;> cases sd <;> cases ed <;>
    simp [List.any_eq_true, gt_iff_lt] <;>
    tauto

/-- C9: `onDateFocus` evaluated at the failing input: the focused date
moves from day 5 to day 6 of the same month (month 0) while the window
shows months `[2, 3]` — the months are equal, yet the hook re-seeds the
window to `[0, 1]`, because its `isSameMonth` is imported from
`date-fns/isSameDay` and therefore compares days. -/
theorem C9_same_month_refocus_reseeds :
    onDateFocus 2 (some ⟨0, 5⟩) [2, 3] ⟨0, 6⟩ = (some ⟨0, 6⟩, [0, 1])
    ∧ isSameMonthCal ⟨0, 6⟩ ⟨0, 5⟩ = true
    ∧ ([0, 1] : List Int) ≠ [2, 3] := by decide

end Datepicker
